import Mathlib

/-!
Shallow embedding of the locomotion / ladder subsystem of the `regino`
character controller (src/player.rs, src/terrain.rs).

Exact rational arithmetic (`ℚ`) models the floating-point scalars wherever the
source performs only field operations and comparisons; the square-root and
trigonometric parts (vector clamping, yaw angles) are modelled over `ℝ`.
-/

namespace Regino

/-! Rational 3-vectors, embedding glam `Vec3` where no square root is needed. -/

@[ext] structure Vec3Q where
  x : ℚ
  y : ℚ
  z : ℚ
deriving DecidableEq

instance : Add Vec3Q := ⟨fun a b => ⟨a.x + b.x, a.y + b.y, a.z + b.z⟩⟩

instance : Sub Vec3Q := ⟨fun a b => ⟨a.x - b.x, a.y - b.y, a.z - b.z⟩⟩

instance : SMul ℚ Vec3Q := ⟨fun c v => ⟨c * v.x, c * v.y, c * v.z⟩⟩

def Vec3Q.dot (a b : Vec3Q) : ℚ := a.x * b.x + a.y * b.y + a.z * b.z

def Vec3Q.lengthSq (a : Vec3Q) : ℚ := a.dot a

/-- Vec3::Y of glam. -/
def Vec3Q.unitY : Vec3Q := ⟨0, 1, 0⟩

/-- Vec3::Z of glam. -/
def Vec3Q.unitZ : Vec3Q := ⟨0, 0, 1⟩

/-! Constants from src/player.rs. -/

def PLAYER_HEIGHT : ℚ := 1

def PLAYER_WIDTH : ℚ := 1

def LADDER_SPEED : ℚ := 2

/-! The locomotion state machine of `player_state_machine` (src/player.rs,
lines 163-210).  The character entity is identified by a `Nat` id; ladder
begin/end events carry the id of the character they address, as the
`LadderInteractionBeginEvent` / `LadderInteractionEndEvent` structs do. -/

/-- Embedding of the `PlayerMovingOnLadder` component payload. -/
structure LadderCtx where
  face_normal : Vec3Q
  top : Vec3Q
  bottom : Vec3Q
deriving DecidableEq

inductive Mode where
  | grounded : Mode
  | jumping : Mode
  | onLadder : LadderCtx → Mode
deriving DecidableEq

/-- Rigid body mode (bevy_xpbd `RigidBody::Dynamic` / `RigidBody::Kinematic`). -/
inductive BodyMode where
  | dynamic : BodyMode
  | kinematic : BodyMode
deriving DecidableEq

/-- The per-character state the machine's transitions and entry/exit side
effects touch: the locomotion mode, the rigid-body mode, the velocities, and
whether the `TnuaControllerBundle` movement driver is attached. -/
structure CharState where
  mode : Mode
  body : BodyMode
  linVel : Vec3Q
  angVel : Vec3Q
  hasController : Bool
deriving DecidableEq

inductive LadderEvent where
  | beginEv : Nat → LadderCtx → LadderEvent
  | endEv : Nat → LadderEvent
deriving DecidableEq

/-- The `on_enter::<PlayerMovingOnLadder>` side effect: remove the controller
bundle, switch the body to kinematic, zero the linear and angular velocity. -/
def enterLadder (s : CharState) (ctx : LadderCtx) : CharState :=
  { s with
    mode := Mode.onLadder ctx
    body := BodyMode.kinematic
    linVel := ⟨0, 0, 0⟩
    angVel := ⟨0, 0, 0⟩
    hasController := false }

/-- The `on_exit::<PlayerMovingOnLadder>` side effect: re-insert the controller
bundle and switch the body back to dynamic. -/
def exitLadder (s : CharState) : CharState :=
  { s with
    mode := Mode.grounded
    body := BodyMode.dynamic
    hasController := true }

/-- The `trans_builder::<PlayerGrounded, _, PlayerMovingOnLadder>` transition:
fires only from `Grounded` and only when the event's entity id is the
character's own id; otherwise the builder returns `None` and nothing happens. -/
def ladderBeginTrans (selfId : Nat) (s : CharState) (e : Nat) (ctx : LadderCtx) :
    CharState :=
  match s.mode with
  | Mode.grounded => if e = selfId then enterLadder s ctx else s
  | _ => s

/-- The `trans_builder::<PlayerMovingOnLadder, _, PlayerGrounded>` transition:
fires only from `OnLadder` and only for the character's own id. -/
def ladderEndTrans (selfId : Nat) (s : CharState) (e : Nat) : CharState :=
  match s.mode with
  | Mode.onLadder _ => if e = selfId then exitLadder s else s
  | _ => s

def applyEvent (selfId : Nat) (s : CharState) (ev : LadderEvent) : CharState :=
  match ev with
  | LadderEvent.beginEv e ctx => ladderBeginTrans selfId s e ctx
  | LadderEvent.endEv e => ladderEndTrans selfId s e

/-- Scan this frame's events in order and fire at most one transition (the
state machine performs at most one transition per frame). -/
def applyEvents (selfId : Nat) (s : CharState) : List LadderEvent → CharState
  | [] => s
  | ev :: rest =>
      let s2 := applyEvent selfId s ev
      if s2 = s then applyEvents selfId s rest else s2

/-- Per-frame inputs visible to the state machine: the jump action edges and
the physics report of an active jump (`IsJumping` trigger), plus the ladder
events sent this frame. -/
structure FrameInput where
  jumpJustPressed : Bool
  jumpPressed : Bool
  isJumping : Bool
  events : List LadderEvent

/-- One frame of the state machine, with the transitions checked in their
declaration order.  From `Jumping`, the self-loop (`IsJumping` and jump held)
carries no entry/exit side effects, so it is folded into the identity. -/
def step (selfId : Nat) (s : CharState) (inp : FrameInput) : CharState :=
  match s.mode with
  | Mode.grounded =>
      if inp.jumpJustPressed then { s with mode := Mode.jumping }
      else applyEvents selfId s inp.events
  | Mode.jumping =>
      if !inp.isJumping && !inp.jumpPressed then { s with mode := Mode.grounded }
      else s
  | Mode.onLadder _ => applyEvents selfId s inp.events

/-- The state a freshly spawned player starts in (`add_player` inserts
`RigidBody::Dynamic`, a `TnuaControllerBundle` and the initial
`PlayerGrounded` state). -/
def initState : CharState :=
  { mode := Mode.grounded
    body := BodyMode.dynamic
    linVel := ⟨0, 0, 0⟩
    angVel := ⟨0, 0, 0⟩
    hasController := true }

def run (selfId : Nat) (inps : List FrameInput) : CharState :=
  inps.foldl (step selfId) initState

/-! The ladder climb controller `player_movement_ladder` (src/player.rs,
lines 341-379).  Both `if` blocks run sequentially (they are not chained with
`else`), and `height` / `cur_pos` are computed once from the translation at
the start of the frame. -/

/-- One frame of `player_movement_ladder` for one character: returns the new
translation and the `LadderInteractionEndEvent`s sent, from the held state of
the Up/Down actions, the `PlayerMovingOnLadder` data, the current translation
and the elapsed frame time. -/
def ladderStep (selfId : Nat) (up down : Bool) (ctx : LadderCtx) (t : Vec3Q)
    (dt : ℚ) : Vec3Q × List LadderEvent :=
  let height := ctx.top.y - ctx.bottom.y
  let cur_pos := t.y - ctx.bottom.y
  let s1 : Vec3Q × List LadderEvent :=
    if up then
      if cur_pos > height + PLAYER_HEIGHT / 2 then
        (t - (PLAYER_WIDTH * 0.8) • ctx.face_normal, [LadderEvent.endEv selfId])
      else
        (t + (LADDER_SPEED * dt) • Vec3Q.unitY, [])
    else (t, [])
  if down then
    if cur_pos < 0.1 then
      (s1.1, s1.2 ++ [LadderEvent.endEv selfId])
    else
      (s1.1 - (LADDER_SPEED * dt) • Vec3Q.unitY, s1.2)
  else s1

/-! The animation frame selector `player_animation` (src/player.rs,
lines 381-424). -/

/-- Rust `%` on floats: remainder with the sign of the dividend,
`a - b * trunc(a / b)`. -/
def rustMod (a b : ℚ) : ℚ :=
  a - b * ((if 0 ≤ a / b then Int.floor (a / b) else Int.ceil (a / b) : ℤ) : ℚ)

def WALK_ANIMATION_DURATION : ℚ := 0.4

/-- One frame of `player_animation` for one character.  `rv` is
`running_velocity` of the walk basis when a walk basis is present; the speed
test `speed == 0.` (with `speed = ‖rv‖`) is embedded as `rv.lengthSq = 0`,
which is equivalent over exact arithmetic and avoids the square root.
Returns the material index written this frame (`none` when the frame loop
writes nothing) and the new value of the `walk_start_time` local. -/
def animStep (rv : Option Vec3Q) (walkStart : Option ℚ) (elapsed : ℚ) :
    Option Nat × Option ℚ :=
  match rv with
  | none => (some 0, walkStart)
  | some v =>
      if v.lengthSq = 0 then (some 0, walkStart)
      else
        let start := match walkStart with
          | some t => t
          | none => elapsed
        let m := rustMod (elapsed - start) WALK_ANIMATION_DURATION /
          WALK_ANIMATION_DURATION
        (if m ≥ 0.6 then some 1 else if m ≥ 0 then some 0 else none, some start)

/-! The ladder alignment projection of `player_interaction` (src/player.rs,
lines 486-490). -/

/-- `ladder_center = (hit_pos - ladder_pos).dot(face_normal) * face_normal
+ ladder_pos`. -/
def ladderCenter (hit_pos ladder_pos face_normal : Vec3Q) : Vec3Q :=
  ((hit_pos - ladder_pos).dot face_normal) • face_normal + ladder_pos

/-! The ladder descriptor built by `make_ladder` (src/terrain.rs,
lines 211-256): the mesh AABB half extents are scaled by the global transform
scale, the face normal is the constant `Vec3::Z`, and the collider is a cuboid
at the transformed AABB centre. -/

structure LadderDesc where
  face_normal : Vec3Q
  halfExtents : Vec3Q
  position : Vec3Q

/-- The `Ladder` bundle spawned by `make_ladder` for a mesh whose AABB has the
given half extents, under a global transform with the given scale, with
`position` the world translation of the transformed AABB centre. -/
def makeLadderDesc (aabbHalf scale posn : Vec3Q) : LadderDesc :=
  { face_normal := Vec3Q.unitZ
    halfExtents := ⟨aabbHalf.x * scale.x, aabbHalf.y * scale.y, aabbHalf.z * scale.z⟩
    position := posn }

/-! Real-valued vectors for the square-root / trigonometric parts of the
source (glam `clamp_length_max` and `Vec2::angle_between`). -/

@[ext] structure Vec3R where
  x : ℝ
  y : ℝ
  z : ℝ

def Vec3R.lengthSq (v : Vec3R) : ℝ := v.x * v.x + v.y * v.y + v.z * v.z

noncomputable def Vec3R.length (v : Vec3R) : ℝ := Real.sqrt v.lengthSq

/-- glam `Vec3::clamp_length_max`: if the squared length exceeds `m * m`,
rescale by `m * (1 / sqrt(length_squared))` componentwise. -/
noncomputable def clampLengthMax (v : Vec3R) (m : ℝ) : Vec3R :=
  if v.lengthSq > m * m then
    ⟨m * (v.x * (1 / Real.sqrt v.lengthSq)),
     m * (v.y * (1 / Real.sqrt v.lengthSq)),
     m * (v.z * (1 / Real.sqrt v.lengthSq))⟩
  else v

def MOVEMENT_SPEED : ℝ := 2

/-- The planar movement vector of `player_movement_walk` (src/player.rs,
lines 304-322): Up subtracts `MOVEMENT_SPEED` on z, Down adds on z, Left
subtracts on x, Right adds on x, then the vector is clamped to
`MOVEMENT_SPEED`. -/
noncomputable def walkMovement (up down left right : Bool) : Vec3R :=
  let m0 : Vec3R := ⟨0, 0, 0⟩
  let m1 := if up then { m0 with z := m0.z - MOVEMENT_SPEED } else m0
  let m2 := if down then { m1 with z := m1.z + MOVEMENT_SPEED } else m1
  let m3 := if left then { m2 with x := m2.x - MOVEMENT_SPEED } else m2
  let m4 := if right then { m3 with x := m3.x + MOVEMENT_SPEED } else m3
  clampLengthMax m4 MOVEMENT_SPEED

@[ext] structure Vec2R where
  x : ℝ
  y : ℝ

def Vec2R.dot (a b : Vec2R) : ℝ := a.x * b.x + a.y * b.y

def Vec2R.lengthSq (a : Vec2R) : ℝ := a.x * a.x + a.y * a.y

def Vec2R.perpDot (a b : Vec2R) : ℝ := a.x * b.y - a.y * b.x

/-- Rust `f32::signum` restricted to non-NaN inputs; positive zero maps
to `1` (negative-zero bit patterns do not arise in the embedded uses). -/
noncomputable def signumF (x : ℝ) : ℝ := if x < 0 then -1 else 1

/-- glam `Vec2::angle_between`:
`acos(dot / sqrt(lsq_a * lsq_b)) * signum(perp_dot)`. -/
noncomputable def angleBetween (a b : Vec2R) : ℝ :=
  Real.arccos (a.dot b / Real.sqrt (a.lengthSq * b.lengthSq)) *
    signumF (a.perpDot b)

/-- The yaw the code writes at ladder alignment (src/player.rs, line 495):
`face_normal.xz().angle_between(Vec2::Y)`. -/
noncomputable def codeYaw (n : Vec3R) : ℝ := angleBetween ⟨n.x, n.z⟩ ⟨0, 1⟩

/-- Modelled from the spec: yaw as the angle between `-face_normal` projected
to the horizontal plane and the world up-facing reference axis `Vec2::Y`;
written to compare against `codeYaw`. -/
noncomputable def specYaw (n : Vec3R) : ℝ := angleBetween ⟨-n.x, -n.z⟩ ⟨0, 1⟩

/-- Horizontal (x, z) components of the world forward axis `(0, 0, -1)`
rotated by `Quat::from_rotation_y θ`. -/
noncomputable def yawForward (θ : ℝ) : Vec2R := ⟨-Real.sin θ, -Real.cos θ⟩

/-- Same as `codeYaw` but fed from the exact rational ladder normal. -/
noncomputable def yawOfQ (n : Vec3Q) : ℝ :=
  angleBetween ⟨(n.x : ℝ), (n.z : ℝ)⟩ ⟨0, 1⟩

/-! The interaction system `player_interaction` (src/player.rs,
lines 462-522).  Ray hits, ladder positions and AABBs come from the physics
collaborator; the transform holds the exact translation plus the yaw
rotation. -/

structure HitR where
  entity : Nat
  toi : ℚ

/-- World data of an entity carrying a `Ladder` component: its face normal,
its `Position`, and the world AABB of its collider (only the vertical centre
and half extent are consumed). -/
structure LadderWorld where
  face_normal : Vec3Q
  position : Vec3Q
  aabbCenterY : ℚ
  aabbHalfY : ℚ

structure XForm where
  translation : Vec3Q
  yaw : ℝ

/-- The `Grounded` branch of `player_interaction`: scan the hits in order; at
the first hit whose entity carries a ladder, align the character and emit a
`LadderInteractionBeginEvent`, then stop. -/
noncomputable def scanLadderHits (selfId : Nat) (rayOrigin rayDir : Vec3Q)
    (ladders : Nat → Option LadderWorld) (xf : XForm) :
    List HitR → XForm × List LadderEvent
  | [] => (xf, [])
  | hit :: rest =>
      match ladders hit.entity with
      | none => scanLadderHits selfId rayOrigin rayDir ladders xf rest
      | some lw =>
          let hit_pos := rayOrigin + hit.toi • rayDir
          let center := ladderCenter hit_pos lw.position lw.face_normal
          let player_pos : Vec3Q := ⟨center.x, xf.translation.y, center.z⟩
          let top := lw.aabbCenterY + lw.aabbHalfY
          let bottom := lw.aabbCenterY - lw.aabbHalfY + PLAYER_HEIGHT / 2
          (⟨player_pos, yawOfQ lw.face_normal⟩,
           [LadderEvent.beginEv selfId
             ⟨lw.face_normal, ⟨player_pos.x, top, player_pos.z⟩,
              ⟨player_pos.x, bottom, player_pos.z⟩⟩])

/-- One frame of `player_interaction` for one character: when the interact
action was just pressed, either scan for a ladder (while `PlayerGrounded` is
present) or send a `LadderInteractionEndEvent` unconditionally. -/
noncomputable def playerInteraction (selfId : Nat)
    (justPressedInteract grounded : Bool) (rayOrigin rayDir : Vec3Q)
    (hits : List HitR) (ladders : Nat → Option LadderWorld) (xf : XForm) :
    XForm × List LadderEvent :=
  if justPressedInteract then
    if grounded then scanLadderHits selfId rayOrigin rayDir ladders xf hits
    else (xf, [LadderEvent.endEv selfId])
  else (xf, [])

/-! Concrete sample data used by witness statements. -/

/-- A ladder context with the builder's face normal and a 3-unit climb. -/
def ctxZ : LadderCtx := ⟨Vec3Q.unitZ, ⟨0, 3, 0⟩, ⟨0, 0, 0⟩⟩

/-- The spawn state with the mode forced to `Jumping`. -/
def jumpingState : CharState := { initState with mode := Mode.jumping }

/-- The invariant of claim C1, as a predicate on character states. -/
def KinematicIffOnLadder (s : CharState) : Prop :=
  s.body = BodyMode.kinematic ↔ ∃ ctx, s.mode = Mode.onLadder ctx

/-! Theorems. -/

theorem Vec3Q.add_def (a b : Vec3Q) : a + b = ⟨a.x + b.x, a.y + b.y, a.z + b.z⟩ := rfl

theorem Vec3Q.sub_def (a b : Vec3Q) : a - b = ⟨a.x - b.x, a.y - b.y, a.z - b.z⟩ := rfl

theorem Vec3Q.smul_def (c : ℚ) (v : Vec3Q) : c • v = ⟨c * v.x, c * v.y, c * v.z⟩ := rfl

theorem kiol_enterLadder (s : CharState) (ctx : LadderCtx) :
    KinematicIffOnLadder (enterLadder s ctx) := by
  simp [KinematicIffOnLadder, enterLadder]

theorem kiol_exitLadder (s : CharState) :
    KinematicIffOnLadder (exitLadder s) := by
  simp [KinematicIffOnLadder, exitLadder]

theorem applyEvent_kiol (selfId : Nat) (s : CharState) (ev : LadderEvent)
    (h : KinematicIffOnLadder s) :
    KinematicIffOnLadder (applyEvent selfId s ev) := by
  obtain ⟨m, b, lv, av, hc⟩ := s
  cases ev with
  | beginEv e ctx =>
      cases m with
      | grounded =>
          by_cases he : e = selfId
          · simpa [applyEvent, ladderBeginTrans, he] using
              kiol_enterLadder ⟨Mode.grounded, b, lv, av, hc⟩ ctx
          · simpa [applyEvent, ladderBeginTrans, he] using h
      | jumping => simpa [applyEvent, ladderBeginTrans] using h
      | onLadder c => simpa [applyEvent, ladderBeginTrans] using h
  | endEv e =>
      cases m with
      | grounded => simpa [applyEvent, ladderEndTrans] using h
      | jumping => simpa [applyEvent, ladderEndTrans] using h
      | onLadder c =>
          by_cases he : e = selfId
          · simpa [applyEvent, ladderEndTrans, he] using
              kiol_exitLadder ⟨Mode.onLadder c, b, lv, av, hc⟩
          · simpa [applyEvent, ladderEndTrans, he] using h

theorem applyEvents_kiol (selfId : Nat) (evs : List LadderEvent) :
    ∀ s : CharState, KinematicIffOnLadder s →
      KinematicIffOnLadder (applyEvents selfId s evs) := by
  induction evs with
  | nil => intro s h; exact h
  | cons ev rest ih =>
      intro s h
      unfold applyEvents
      by_cases he : applyEvent selfId s ev = s
      · simpa [he] using ih s h
      · simpa [he] using applyEvent_kiol selfId s ev h

theorem step_kiol (selfId : Nat) (s : CharState) (inp : FrameInput)
    (h : KinematicIffOnLadder s) : KinematicIffOnLadder (step selfId s inp) := by
  obtain ⟨m, b, lv, av, hc⟩ := s
  cases m with
  | grounded =>
      by_cases hj : inp.jumpJustPressed
      · simp only [KinematicIffOnLadder] at h ⊢
        simp only [step, hj, if_true]
        simpa using h
      · simpa [step, hj] using
          applyEvents_kiol selfId inp.events _ h
  | jumping =>
      by_cases hj : !inp.isJumping && !inp.jumpPressed
      · simp only [KinematicIffOnLadder] at h ⊢
        simp only [step, hj, if_true]
        simpa using h
      · simpa [step, hj] using h
  | onLadder c =>
      simpa [step] using applyEvents_kiol selfId inp.events _ h

theorem run_kiol (selfId : Nat) (inps : List FrameInput) :
    KinematicIffOnLadder (run selfId inps) := by
  unfold run
  have hfold : ∀ (l : List FrameInput) (s : CharState), KinematicIffOnLadder s →
      KinematicIffOnLadder (l.foldl (step selfId) s) := by
    intro l
    induction l with
    | nil => intro s h; exact h
    | cons i rest ih => intro s h; exact ih _ (step_kiol selfId s i h)
  exact hfold inps initState (by simp [KinematicIffOnLadder, initState])

/-- Claim C1: in every reachable state of the character, the rigid body is in
kinematic mode if and only if the locomotion mode is OnLadder; the OnLadder
entry action sets the body kinematic and zeroes the velocities, the exit
action restores dynamic mode, and no other transition changes the body mode. -/
theorem C1_kinematic_iff_onLadder (selfId : Nat) (inps : List FrameInput) :
    (run selfId inps).body = BodyMode.kinematic ↔
      ∃ ctx, (run selfId inps).mode = Mode.onLadder ctx :=
  run_kiol selfId inps

/-- Claim C8: a ladder-begin signal carrying a foreign entity id, or arriving
while the mode is not Grounded, produces no transition and no side effect; a
ladder-end signal while the mode is not OnLadder, or for a different
character, is likewise a no-op: the whole character state is unchanged. -/
theorem C8_unrecognized_signals_ignored (selfId : Nat) :
    (∀ (s : CharState) (e : Nat) (ctx : LadderCtx),
        e ≠ selfId ∨ s.mode ≠ Mode.grounded →
        ladderBeginTrans selfId s e ctx = s) ∧
    (∀ (s : CharState) (e : Nat),
        e ≠ selfId ∨ (∀ ctx, s.mode ≠ Mode.onLadder ctx) →
        ladderEndTrans selfId s e = s) := by
  constructor
  · intro s e ctx h
    obtain ⟨m, b, lv, av, hc⟩ := s
    cases m with
    | grounded =>
        rcases h with he | hm
        · simp [ladderBeginTrans, he]
        · exact absurd rfl hm
    | jumping => simp [ladderBeginTrans]
    | onLadder c => simp [ladderBeginTrans]
  · intro s e h
    obtain ⟨m, b, lv, av, hc⟩ := s
    cases m with
    | grounded => simp [ladderEndTrans]
    | jumping => simp [ladderEndTrans]
    | onLadder c =>
        rcases h with he | hm
        · simp [ladderEndTrans, he]
        · exact absurd rfl (hm c)

/-- Witness for C8 at concrete inputs: a begin and an end signal for entity 1
leave the entity-0 spawn state untouched. -/
theorem C8_unrecognized_signals_ignored_witness :
    ladderBeginTrans 0 initState 1 ctxZ = initState ∧
    ladderEndTrans 0 initState 1 = initState :=
  ⟨(C8_unrecognized_signals_ignored 0).1 initState 1 ctxZ (Or.inl (by decide)),
   (C8_unrecognized_signals_ignored 0).2 initState 1 (Or.inl (by decide))⟩

/-- Claim C9: every Ladder descriptor emitted by `make_ladder` has
`face_normal` equal to the constant world +Z axis, which is a unit vector. -/
theorem C9_face_normal_unitZ (aabbHalf scale posn : Vec3Q) :
    (makeLadderDesc aabbHalf scale posn).face_normal = ⟨0, 0, 1⟩ ∧
    Vec3Q.dot (makeLadderDesc aabbHalf scale posn).face_normal
      (makeLadderDesc aabbHalf scale posn).face_normal = 1 := by
  refine ⟨rfl, ?_⟩
  norm_num [makeLadderDesc, Vec3Q.dot, Vec3Q.unitZ]

/-- Claim C5: the ladder-center projection is idempotent whenever the face
normal is a unit vector, so re-triggering the same interaction with identical
hit point and ladder transform produces the same ladder center. -/
theorem C5_ladderCenter_idempotent (h p n : Vec3Q) (hn : n.dot n = 1) :
    ladderCenter (ladderCenter h p n) p n = ladderCenter h p n := by
  have hn' : n.x * n.x + n.y * n.y + n.z * n.z = 1 := hn
  apply Vec3Q.ext
  · simp only [ladderCenter, Vec3Q.dot, Vec3Q.sub_def, Vec3Q.add_def,
      Vec3Q.smul_def]
    linear_combination
      ((((h.x - p.x) * n.x + (h.y - p.y) * n.y + (h.z - p.z) * n.z) * n.x)) * hn'
  · simp only [ladderCenter, Vec3Q.dot, Vec3Q.sub_def, Vec3Q.add_def,
      Vec3Q.smul_def]
    linear_combination
      ((((h.x - p.x) * n.x + (h.y - p.y) * n.y + (h.z - p.z) * n.z) * n.y)) * hn'
  · simp only [ladderCenter, Vec3Q.dot, Vec3Q.sub_def, Vec3Q.add_def,
      Vec3Q.smul_def]
    linear_combination
      ((((h.x - p.x) * n.x + (h.y - p.y) * n.y + (h.z - p.z) * n.z) * n.z)) * hn'

/-- Witness for C5 at a concrete hit point, ladder position and unit normal. -/
theorem C5_ladderCenter_idempotent_witness :
    Vec3Q.dot ⟨0, 0, 1⟩ ⟨0, 0, 1⟩ = 1 ∧
    ladderCenter (ladderCenter ⟨1, 2, 3⟩ ⟨4, 5, 6⟩ ⟨0, 0, 1⟩) ⟨4, 5, 6⟩ ⟨0, 0, 1⟩ =
      ladderCenter ⟨1, 2, 3⟩ ⟨4, 5, 6⟩ ⟨0, 0, 1⟩ :=
  ⟨by norm_num [Vec3Q.dot],
   C5_ladderCenter_idempotent ⟨1, 2, 3⟩ ⟨4, 5, 6⟩ ⟨0, 0, 1⟩
     (by norm_num [Vec3Q.dot])⟩

/-- Counterexample to claim C4: at a zero-speed frame the selector picks
frame 0 but does not reset the latched walk-cycle start time to unset — with
start time 5 latched, a zero-velocity frame keeps it at 5. -/
theorem C4_counterexample :
    (animStep (some ⟨0, 0, 0⟩) (some 5) 10).2 ≠ none := by
  simp [animStep, Vec3Q.lengthSq, Vec3Q.dot]

/-- Claim C4 as amended: in every frame with no walking intent (no walk basis,
or zero running velocity) the selector writes frame 0 and leaves the latched
walk-cycle start time unchanged. -/
theorem C4_idle_selects_frame_zero (rv : Option Vec3Q) (ws : Option ℚ)
    (elapsed : ℚ) (h : rv = none ∨ ∃ v, rv = some v ∧ v.lengthSq = 0) :
    animStep rv ws elapsed = (some 0, ws) := by
  rcases h with rfl | ⟨v, rfl, hv⟩
  · rfl
  · simp [animStep, hv]

/-- Witness for the amended C4 at a concrete zero-velocity frame. -/
theorem C4_idle_selects_frame_zero_witness :
    animStep (some ⟨0, 0, 0⟩) (some 5) 10 = (some 0, some 5) :=
  C4_idle_selects_frame_zero (some ⟨0, 0, 0⟩) (some 5) 10
    (Or.inr ⟨⟨0, 0, 0⟩, rfl, by norm_num [Vec3Q.lengthSq, Vec3Q.dot]⟩)

/-- Claim C6: while OnLadder with Up held (and Down not held), with
`height = top.y - bottom.y` and `cur = character.y - bottom.y`: past the top
(`cur > height + half_character_height`) the controller emits a ladder-end
signal and displaces the character by `width * 0.8` along `-face_normal`;
otherwise it translates the character up by the climb speed times the frame
time, changing no other component of the translation. -/
theorem C6_ladder_up_branch (selfId : Nat) (ctx : LadderCtx) (t : Vec3Q)
    (dt : ℚ) :
    ladderStep selfId true false ctx t dt =
      if t.y - ctx.bottom.y > (ctx.top.y - ctx.bottom.y) + PLAYER_HEIGHT / 2 then
        (t - (PLAYER_WIDTH * 0.8) • ctx.face_normal, [LadderEvent.endEv selfId])
      else (⟨t.x, t.y + LADDER_SPEED * dt, t.z⟩, []) := by
  by_cases hc : t.y - ctx.bottom.y > (ctx.top.y - ctx.bottom.y) + PLAYER_HEIGHT / 2
  · simp [ladderStep, hc]
  · simp only [ladderStep, hc, if_true, if_false, Bool.false_eq_true, ite_true,
      ite_false, Prod.mk.injEq]
    refine ⟨?_, trivial⟩
    apply Vec3Q.ext <;>
      simp [Vec3Q.add_def, Vec3Q.smul_def, Vec3Q.unitY]

/-- Counterexample to claim C7: the ladder climb controller does change the
horizontal position when Up is held past the top of the ladder — from
translation `(0, 4, 0)` on the sample ladder the z coordinate moves. -/
theorem C7_counterexample :
    ((ladderStep 0 true false ctxZ ⟨0, 4, 0⟩ 0).1).z ≠ (Vec3Q.mk 0 4 0).z := by
  norm_num [ladderStep, ctxZ, Vec3Q.unitZ, Vec3Q.unitY, Vec3Q.sub_def,
    Vec3Q.add_def, Vec3Q.smul_def, PLAYER_HEIGHT, PLAYER_WIDTH, LADDER_SPEED]

/-- Claim C7 as amended: the ladder climb controller leaves the horizontal
(x and z) translation unchanged in every frame except the climb-past-top
exit, where it displaces the character by `width * 0.8` along
`-face_normal`. -/
theorem C7_horizontal_unchanged (selfId : Nat) (up down : Bool)
    (ctx : LadderCtx) (t : Vec3Q) (dt : ℚ)
    (h : ¬(up = true ∧
      t.y - ctx.bottom.y > (ctx.top.y - ctx.bottom.y) + PLAYER_HEIGHT / 2)) :
    ((ladderStep selfId up down ctx t dt).1).x = t.x ∧
    ((ladderStep selfId up down ctx t dt).1).z = t.z := by
  unfold ladderStep
  cases up with
  | true =>
      have h2 : ¬(t.y - ctx.bottom.y > (ctx.top.y - ctx.bottom.y) +
          PLAYER_HEIGHT / 2) := fun hc => h ⟨rfl, hc⟩
      cases down <;>
        simp [h2, Vec3Q.add_def, Vec3Q.sub_def, Vec3Q.smul_def, Vec3Q.unitY] <;>
        split_ifs <;>
        simp [Vec3Q.add_def, Vec3Q.sub_def, Vec3Q.smul_def, Vec3Q.unitY]
  | false =>
      cases down <;>
        simp [Vec3Q.add_def, Vec3Q.sub_def, Vec3Q.smul_def, Vec3Q.unitY] <;>
        split_ifs <;>
        simp [Vec3Q.add_def, Vec3Q.sub_def, Vec3Q.smul_def, Vec3Q.unitY]

/-- Witness for the amended C7: a concrete upward climb frame well below the
top keeps x and z. -/
theorem C7_horizontal_unchanged_witness :
    ((ladderStep 0 true false ctxZ ⟨0, 1, 0⟩ 1).1).x = (Vec3Q.mk 0 1 0).x ∧
    ((ladderStep 0 true false ctxZ ⟨0, 1, 0⟩ 1).1).z = (Vec3Q.mk 0 1 0).z :=
  C7_horizontal_unchanged 0 true false ctxZ ⟨0, 1, 0⟩ 1
    (by norm_num [ctxZ, PLAYER_HEIGHT])

theorem Vec3R.lengthSq_nonneg (v : Vec3R) : 0 ≤ v.lengthSq := by
  unfold Vec3R.lengthSq
  nlinarith [mul_self_nonneg v.x, mul_self_nonneg v.y, mul_self_nonneg v.z]

theorem clampLengthMax_length_le (v : Vec3R) (m : ℝ) (hm : 0 ≤ m) :
    (clampLengthMax v m).length ≤ m := by
  have hv : 0 ≤ v.lengthSq := v.lengthSq_nonneg
  unfold clampLengthMax
  split_ifs with h
  · have hpos : 0 < v.lengthSq := lt_of_le_of_lt (mul_self_nonneg m) h
    have hs : 0 < Real.sqrt v.lengthSq := Real.sqrt_pos.mpr hpos
    have hss : Real.sqrt v.lengthSq * Real.sqrt v.lengthSq = v.lengthSq :=
      Real.mul_self_sqrt hv
    have hw : Vec3R.lengthSq
        ⟨m * (v.x * (1 / Real.sqrt v.lengthSq)),
         m * (v.y * (1 / Real.sqrt v.lengthSq)),
         m * (v.z * (1 / Real.sqrt v.lengthSq))⟩ = m * m := by
      unfold Vec3R.lengthSq at hss ⊢
      have hne : Real.sqrt (v.x * v.x + v.y * v.y + v.z * v.z) ≠ 0 := by
        unfold Vec3R.lengthSq at hs
        exact ne_of_gt hs
      field_simp
      linear_combination (-(m * m)) * hss
    unfold Vec3R.length
    rw [hw]
    rw [Real.sqrt_mul_self hm]
  · unfold Vec3R.length
    calc Real.sqrt v.lengthSq ≤ Real.sqrt (m * m) :=
          Real.sqrt_le_sqrt (le_of_not_lt h)
      _ = m := Real.sqrt_mul_self hm

/-- Claim C2: for every combination of the four held directions, the planar
movement vector of `player_movement_walk` has magnitude at most the movement
speed constant 2, so diagonal movement is not faster than axis movement. -/
theorem C2_walk_speed_clamped (up down left right : Bool) :
    (walkMovement up down left right).length ≤ 2 := by
  unfold walkMovement
  exact clampLengthMax_length_le _ _ (by norm_num [MOVEMENT_SPEED])

/-- Claim C10: when interact is just pressed while the character is not
Grounded (the `PlayerGrounded` marker is absent, e.g. while Jumping), the
interaction system emits exactly one ladder-end signal for the character,
leaves the transform untouched, and never scans the probe hits (the output is
the same for every hit list); while Jumping, a frame carrying that signal
leaves the state machine's state unchanged, because ladder-end is only
accepted from OnLadder. -/
theorem C10_interact_not_grounded (selfId : Nat) (rayO rayD : Vec3Q)
    (hits : List HitR) (ladders : Nat → Option LadderWorld) (xf : XForm)
    (s : CharState) (hmode : s.mode = Mode.jumping) :
    playerInteraction selfId true false rayO rayD hits ladders xf =
      (xf, [LadderEvent.endEv selfId]) ∧
    step selfId s ⟨false, true, true, [LadderEvent.endEv selfId]⟩ = s := by
  constructor
  · rfl
  · obtain ⟨m, b, lv, av, hc⟩ := s
    simp only [CharState.mk.injEq] at hmode ⊢
    subst hmode
    simp [step]

/-- Witness for C10 with an empty hit list, no ladders and the jumping spawn
state. -/
theorem C10_interact_not_grounded_witness :
    playerInteraction 0 true false ⟨0, 0, 0⟩ ⟨0, 0, -1⟩ [] (fun _ => none)
        ⟨⟨0, 0, 0⟩, 0⟩ =
      (⟨⟨0, 0, 0⟩, 0⟩, [LadderEvent.endEv 0]) ∧
    step 0 jumpingState ⟨false, true, true, [LadderEvent.endEv 0]⟩ =
      jumpingState :=
  C10_interact_not_grounded 0 ⟨0, 0, 0⟩ ⟨0, 0, -1⟩ [] (fun _ => none)
    ⟨⟨0, 0, 0⟩, 0⟩ jumpingState rfl

/-- Counterexample to claim C3: for the builder's ladder normal `(0, 0, 1)`
the yaw the code writes (angle between `+face_normal.xz` and `Vec2::Y`,
which is 0) differs from the spec's formula (angle between `-face_normal.xz`
and `Vec2::Y`, which is π). -/
theorem C3_counterexample : specYaw ⟨0, 0, 1⟩ ≠ codeYaw ⟨0, 0, 1⟩ := by
  have hcode : codeYaw ⟨0, 0, 1⟩ = 0 := by
    simp only [codeYaw, angleBetween, Vec2R.dot, Vec2R.lengthSq, Vec2R.perpDot,
      signumF]
    norm_num [Real.arccos_one]
  have hspec : specYaw ⟨0, 0, 1⟩ = Real.pi := by
    simp only [specYaw, angleBetween, Vec2R.dot, Vec2R.lengthSq, Vec2R.perpDot,
      signumF]
    norm_num [Real.arccos_neg_one]
  rw [hspec, hcode]
  exact Real.pi_ne_zero

/-- Claim C3 as amended: the yaw the code writes is the angle between
`+face_normal` projected to the horizontal plane and `Vec2::Y` (not
`-face_normal`); with that yaw the character does face opposite the ladder's
normal: the world forward axis `(0, 0, -1)` rotated by the yaw equals the
negated normalized horizontal projection of `face_normal` (whenever that
projection is non-zero). -/
theorem C3_forward_faces_opposite_normal (n : Vec3R)
    (hL : 0 < n.x * n.x + n.z * n.z) :
    yawForward (codeYaw n) =
      ⟨-(n.x / Real.sqrt (n.x * n.x + n.z * n.z)),
       -(n.z / Real.sqrt (n.x * n.x + n.z * n.z))⟩ := by
  set L := n.x * n.x + n.z * n.z with hLdef
  have hs : 0 < Real.sqrt L := Real.sqrt_pos.mpr hL
  have hsq : Real.sqrt L ^ 2 = L := Real.sq_sqrt hL.le
  have hyaw : codeYaw n = Real.arccos (n.z / Real.sqrt L) * signumF n.x := by
    simp only [codeYaw, angleBetween, Vec2R.dot, Vec2R.lengthSq, Vec2R.perpDot]
    norm_num
  have hzle : n.z ^ 2 ≤ L := by nlinarith [mul_self_nonneg n.x]
  have habs : |n.z| ≤ Real.sqrt L := by
    rw [← Real.sqrt_sq_eq_abs]
    exact Real.sqrt_le_sqrt hzle
  have hd1 : -1 ≤ n.z / Real.sqrt L := by
    rw [le_div_iff₀ hs]
    linarith [(abs_le.mp habs).1]
  have hd2 : n.z / Real.sqrt L ≤ 1 := by
    rw [div_le_one hs]
    exact (abs_le.mp habs).2
  have hcos : Real.cos (codeYaw n) = n.z / Real.sqrt L := by
    rw [hyaw]
    unfold signumF
    split_ifs with hx
    · rw [mul_neg_one, Real.cos_neg, Real.cos_arccos hd1 hd2]
    · rw [mul_one, Real.cos_arccos hd1 hd2]
  have hfrac : 1 - (n.z / Real.sqrt L) ^ 2 = n.x ^ 2 / L := by
    rw [div_pow, hsq]
    field_simp
    linear_combination hLdef
  have hsinv : Real.sin (Real.arccos (n.z / Real.sqrt L)) = |n.x| / Real.sqrt L := by
    rw [Real.sin_arccos, hfrac, Real.sqrt_div (sq_nonneg n.x), Real.sqrt_sq_eq_abs]
  have hsin : Real.sin (codeYaw n) = n.x / Real.sqrt L := by
    rw [hyaw]
    unfold signumF
    split_ifs with hx
    · rw [mul_neg_one, Real.sin_neg, hsinv, abs_of_neg hx]
      ring
    · rw [mul_one, hsinv, abs_of_nonneg (not_lt.mp hx)]
  unfold yawForward
  rw [hsin, hcos]

/-- Witness for the amended C3: at the builder normal `(0, 0, 1)` the rotated
forward axis is the negated normalized horizontal normal. -/
theorem C3_forward_faces_opposite_normal_witness :
    (0 : ℝ) < 0 * 0 + 1 * 1 ∧
    yawForward (codeYaw ⟨0, 0, 1⟩) =
      ⟨-((0 : ℝ) / Real.sqrt (0 * 0 + 1 * 1)), -((1 : ℝ) / Real.sqrt (0 * 0 + 1 * 1))⟩ :=
  ⟨by norm_num, C3_forward_faces_opposite_normal ⟨0, 0, 1⟩ (by norm_num)⟩

end Regino
